import Mathlib

/-!
Verification development for the segno (Micro) QR Code encoder package.

The repository sources provide `segno/__init__.py` (the public entry points
`make`, `make_qr`, `make_micro` and the `QRCode` wrapper class).  The
`segno.encoder` module they delegate to is not part of the sources; its
behaviour is modelled here from the specification (capacity-driven
version/error-level selection, error taxonomy, matrix dimensions, numeric
version sentinels and mask selection), with each modelled definition marked
`Modelled from the spec:` in its doc comment.  Definitions taken directly from
`segno/__init__.py` keep the source names (`make`, `make_qr`, `make_micro`,
`QRCode`, `designator`, `is_micro`, ...).
-/

namespace Segno

/-- Error correction levels L, M, Q, H of the QR standard (spec §3). -/
inductive ErrLevel
  | L
  | M
  | Q
  | H
deriving DecidableEq, Repr

/-- Data modes numeric, alphanumeric, byte, kanji (spec §3). -/
inductive Mode
  | numeric
  | alphanumeric
  | byte
  | kanji
deriving DecidableEq, Repr

/-- Symbol versions: full versions 1..40 (`v n`) and the Micro versions
M1..M4 (spec §3; validity of the numeric range is checked separately). -/
inductive Version
  | v (n : Nat)
  | m1
  | m2
  | m3
  | m4
deriving DecidableEq, Repr

/-- Whether a version is one of the Micro QR versions M1..M4. -/
def Version.is_micro_v : Version → Bool
  | .v _ => false
  | _ => true

/-- Side length of the module grid: 4·version+17 for a full symbol, the fixed
sizes 11/13/15/17 for M1..M4 (spec §3, Matrix). -/
def matrix_size : Version → Nat
  | .v n => 4 * n + 17
  | .m1 => 11
  | .m2 => 13
  | .m3 => 15
  | .m4 => 17

/-- Modelled from the spec: the encoder's internal numeric version identifier,
"negative or <1 sentinel for Micro distinguishing M1–M4, positive 1–40 for
full" (spec §6); the sentinels -1..-4 are chosen for M1..M4. -/
def version_id : Version → Int
  | .v n => n
  | .m1 => -1
  | .m2 => -2
  | .m3 => -3
  | .m4 => -4

/-- Modelled from the spec: a mode-tagged segment produced by the Content
Segmenter, "{mode, raw data slice, optional character encoding name, optional
ECI designator}" (spec §3). -/
structure Segment where
  mode : Mode
  data : List Nat
  encoding : Option String
  eci_designator : Option Nat
deriving DecidableEq, Repr

/-- Modelled from the spec: the Content Segmenter and Bitstream Builder
(spec §4.1, §4.3) belong to the encoder module which is not in the sources;
content is abstracted to the segment list the segmenter would produce and the
total encoded bit count the bitstream builder would need at each trial
version (spec §4.2 recomputes segment bit costs per trial version because
count-indicator widths depend on the version bracket). -/
structure Content where
  segments : List Segment
  bits : Version → Nat

/-- The five error kinds of the public error taxonomy (spec §7). -/
inductive QRErr
  | mode_error
  | version_error
  | error_level_error
  | mask_error
  | data_overflow_error
deriving DecidableEq, Repr

/-- Modelled from the spec: the result bundle of the encoder,
"{matrix, version identifier, error-level identifier or absent, mask index,
segment list}" (spec §6). -/
structure Code where
  matrix : List (List Bool)
  version : Int
  error : Option ErrLevel
  mask : Nat
  segments : List Segment
deriving DecidableEq, Repr

instance : Inhabited Code := ⟨⟨[], 0, none, 0, []⟩⟩

/-- Modelled from the spec: the static capacity table for full symbols
(spec §2, Capacity Tables; §6 calls the symbol specification "a fixed public
standard").  Entry n-1 lists the data codeword counts of version n at error
levels (L, M, Q, H). -/
def full_table : List (Nat × Nat × Nat × Nat) :=
  [(19, 16, 13, 9), (34, 28, 22, 16), (55, 44, 34, 26), (80, 64, 48, 36),
   (108, 86, 62, 46), (136, 108, 76, 60), (156, 124, 88, 66),
   (194, 154, 110, 86), (232, 182, 132, 100), (274, 216, 154, 122),
   (324, 254, 180, 140), (370, 290, 206, 158), (428, 334, 244, 180),
   (461, 365, 261, 197), (523, 415, 295, 223), (589, 453, 325, 253),
   (647, 507, 367, 283), (721, 563, 397, 313), (795, 627, 445, 341),
   (861, 669, 485, 385), (932, 714, 512, 406), (1006, 782, 568, 442),
   (1094, 860, 614, 464), (1174, 914, 664, 514), (1276, 1000, 718, 538),
   (1370, 1062, 754, 596), (1468, 1128, 808, 628), (1531, 1193, 871, 661),
   (1631, 1267, 911, 701), (1735, 1373, 985, 745), (1843, 1455, 1033, 793),
   (1955, 1541, 1115, 845), (2071, 1631, 1171, 901), (2191, 1725, 1231, 961),
   (2306, 1812, 1286, 986), (2434, 1914, 1354, 1054), (2566, 1992, 1426, 1096),
   (2702, 2102, 1502, 1142), (2812, 2216, 1582, 1222), (2956, 2334, 1666, 1276)]

/-- Modelled from the spec: data capacity in bits of full version n at error
level e (8 bits per data codeword, spec §3 Codeword Sequence). -/
def data_bits_full (n : Nat) (e : ErrLevel) : Nat :=
  let r := full_table.getD (n - 1) (0, 0, 0, 0)
  8 * (match e with
       | .L => r.1
       | .M => r.2.1
       | .Q => r.2.2.1
       | .H => r.2.2.2)

/-- Modelled from the spec: data capacity in bits per (version, error level)
pair; `none` when the pair does not exist in the capacity table (spec §3:
"every (version, error-level) pair must exist in the capacity table or the
specification is rejected"; M1 takes no error level, Micro versions support
no level H, Q only on M4). -/
def data_bits : Version → Option ErrLevel → Option Nat
  | .v n, some e => if 1 ≤ n ∧ n ≤ 40 then some (data_bits_full n e) else none
  | .v _, none => none
  | .m1, none => some 20
  | .m1, some _ => none
  | .m2, some .L => some 40
  | .m2, some .M => some 32
  | .m2, _ => none
  | .m3, some .L => some 84
  | .m3, some .M => some 68
  | .m3, _ => none
  | .m4, some .L => some 128
  | .m4, some .M => some 112
  | .m4, some .Q => some 80
  | .m4, _ => none

/-- Modelled from the spec: the eight data-mask formulas of full symbols,
"each mask a deterministic formula over (row, column) producing 0/1"
(spec §4.6), per the fixed public standard (spec §6). -/
def mask_formula_full (i r c : Nat) : Bool :=
  match i with
  | 0 => decide ((r + c) % 2 = 0)
  | 1 => decide (r % 2 = 0)
  | 2 => decide (c % 3 = 0)
  | 3 => decide ((r + c) % 3 = 0)
  | 4 => decide ((r / 2 + c / 3) % 2 = 0)
  | 5 => decide ((r * c) % 2 + (r * c) % 3 = 0)
  | 6 => decide (((r * c) % 2 + (r * c) % 3) % 2 = 0)
  | 7 => decide (((r + c) % 2 + (r * c) % 3) % 2 = 0)
  | _ => false

/-- Modelled from the spec: the four Micro mask patterns reuse full-symbol
formulas 1, 4, 6 and 7 of the fixed public standard (spec §4.6: 4 candidate
masks for Micro, 8 for full). -/
def mask_formula (micro : Bool) (i r c : Nat) : Bool :=
  if micro then mask_formula_full ([1, 4, 6, 7].getD i 0) r c
  else mask_formula_full i r c

/-- Applies the mask formula across one row, `cidx` being the column of the
first cell. -/
def mask_row (micro : Bool) (i r : Nat) : Nat → List Bool → List Bool
  | _, [] => []
  | cidx, b :: rest =>
      xor b (mask_formula micro i r cidx) :: mask_row micro i r (cidx + 1) rest

/-- Applies the mask formula across the rows of a grid, `r` being the row
index of the first row. -/
def apply_mask_rows (micro : Bool) (i : Nat) : Nat → List (List Bool) → List (List Bool)
  | _, [] => []
  | r, row :: rest => mask_row micro i r 0 row :: apply_mask_rows micro i (r + 1) rest

/-- Modelled from the spec: XOR of mask formula `i` into the grid (spec §4.6;
the function-module map of the Matrix Builder is abstracted, the formula is
applied to every cell of the abstract grid). -/
def apply_mask (micro : Bool) (i : Nat) (m : List (List Bool)) : List (List Bool) :=
  apply_mask_rows micro i 0 m

/-- Modelled from the spec: the Matrix Builder allocates an N×N grid with
N = `matrix_size` (spec §4.5, §3); function-pattern stamping and codeword
placement are abstracted to the empty grid. -/
def base_matrix (ver : Version) : List (List Bool) :=
  List.replicate (matrix_size ver) (List.replicate (matrix_size ver) false)

/-- Modelled from the spec: the finished grid for version `ver` under mask
index `i` (allocate, place, apply the mask; spec §4.5–§4.6). -/
def build_matrix (ver : Version) (i : Nat) : List (List Bool) :=
  apply_mask ver.is_micro_v i (base_matrix ver)

/-- Penalty of the runs in one line, continuing a current run of colour `cur`
and length `len`: each maximal run of length ≥ 5 scores 3 + (length - 5)
(spec §4.6, first penalty rule). -/
def runs_go (cur : Bool) (len : Nat) : List Bool → Nat
  | [] => if 5 ≤ len then len - 2 else 0
  | b :: rest =>
      if b = cur then runs_go cur (len + 1) rest
      else (if 5 ≤ len then len - 2 else 0) + runs_go b 1 rest

/-- Penalty of same-colour runs of length ≥ 5 in a line (spec §4.6). -/
def runs_penalty : List Bool → Nat
  | [] => 0
  | b :: rest => runs_go b 1 rest

/-- The j-th column of a grid (missing cells read as light). -/
def col_list (m : List (List Bool)) (j : Nat) : List Bool :=
  m.map (fun row => row.getD j false)

/-- All columns of a grid, width taken from the first row. -/
def columns (m : List (List Bool)) : List (List Bool) :=
  (List.range ((m.headD []).length)).map (col_list m)

/-- Modelled from the spec: penalty rule "runs of ≥5 same-color modules in a
line", summed over rows and columns (spec §4.6). -/
def rule1 (m : List (List Bool)) : Nat :=
  (m.map runs_penalty).sum + ((columns m).map runs_penalty).sum

/-- Number of uniform 2×2 blocks spanned by two adjacent rows, 3 points
each. -/
def pairs_penalty : List Bool → List Bool → Nat
  | a :: b :: rest1, c :: d :: rest2 =>
      (if a = b ∧ b = c ∧ c = d then 3 else 0) + pairs_penalty (b :: rest1) (d :: rest2)
  | _, _ => 0

/-- Modelled from the spec: penalty rule "2×2 blocks of uniform color"
(spec §4.6). -/
def rule2 : List (List Bool) → Nat
  | r1 :: r2 :: rest => pairs_penalty r1 r2 + rule2 (r2 :: rest)
  | _ => 0

/-- Whether `pat` is an initial run of the line. -/
def starts_with : List Bool → List Bool → Bool
  | [], _ => true
  | _ :: _, [] => false
  | p :: ps, x :: xs => (p == x) && starts_with ps xs

/-- Number of occurrences of `pat` in a line. -/
def count_occ (pat : List Bool) : List Bool → Nat
  | [] => 0
  | x :: rest => (if starts_with pat (x :: rest) then 1 else 0) + count_occ pat rest

/-- The finder-like 1:1:3:1:1 dark/light sequence with four light modules on
one side (spec §4.6, third penalty rule). -/
def finder_seq1 : List Bool :=
  [true, false, true, true, true, false, true, false, false, false, false]

/-- The mirrored finder-like sequence. -/
def finder_seq2 : List Bool := finder_seq1.reverse

/-- Finder-likeness penalty of one line, 40 points per occurrence. -/
def finder_line (l : List Bool) : Nat :=
  40 * (count_occ finder_seq1 l + count_occ finder_seq2 l)

/-- Modelled from the spec: penalty rule "patterns resembling the finder
pattern (1:1:3:1:1 ratio) appearing in a row/column" (spec §4.6). -/
def rule3 (m : List (List Bool)) : Nat :=
  (m.map finder_line).sum + ((columns m).map finder_line).sum

/-- Total number of modules of a grid. -/
def total_modules (m : List (List Bool)) : Nat := (m.map List.length).sum

/-- Total number of dark modules of a grid. -/
def dark_modules (m : List (List Bool)) : Nat := (m.map (fun r => r.count true)).sum

/-- Modelled from the spec: penalty "proportional to the imbalance between
dark and light module counts" (spec §4.6), 10 points per 5% deviation from
balance. -/
def rule4 (m : List (List Bool)) : Nat :=
  let t := total_modules m
  let d := dark_modules m
  if t = 0 then 0
  else 10 * ((if 2 * d ≤ t then t - 2 * d else 2 * d - t) * 10 / t)

/-- Modelled from the spec: total penalty score of a full-symbol grid, the sum
of the four penalty rules (spec §4.6); lower is better. -/
def full_score (m : List (List Bool)) : Nat :=
  rule1 m + rule2 m + rule3 m + rule4 m

/-- Modelled from the spec: Micro score = "(count of dark modules in the
rightmost column × 16) + (count of dark modules in the bottommost row)"
(spec §4.6); higher is better. -/
def micro_score (m : List (List Bool)) : Nat :=
  16 * ((m.map (fun row => if row.getD (row.length - 1) false then 1 else 0)).sum) +
    (m.getD (m.length - 1) []).count true

/-- Number of candidate masks: 8 for full symbols, 4 for Micro (spec §4.6). -/
def mask_count (micro : Bool) : Nat := if micro then 4 else 8

/-- Candidate-selection kernel shared by minimisation (full symbols) and
maximisation (Micro): index of the best score, earlier indices winning ties
(spec §4.6 tie-break: lowest mask index). -/
def better (maximize : Bool) (a b : Nat) : Bool :=
  if maximize then decide (b < a) else decide (a < b)

/-- Index of the best element of a score list: the optimum for the given
direction, and among equal optima the lowest index (spec §4.6). -/
def best_index (maximize : Bool) : List Nat → Nat
  | [] => 0
  | [_] => 0
  | s :: t :: rest =>
      let j := best_index maximize (t :: rest)
      if better maximize ((t :: rest).getD j 0) s then j + 1 else 0

/-- Modelled from the spec: the penalty scores of all candidate masks of a
version (spec §4.6). -/
def mask_scores (ver : Version) : List Nat :=
  (List.range (mask_count ver.is_micro_v)).map
    (fun i => if ver.is_micro_v then micro_score (build_matrix ver i)
              else full_score (build_matrix ver i))

/-- Modelled from the spec: the Masking Engine's winning mask index — the
minimum-penalty mask for full symbols and the maximum-score mask for Micro
symbols, ties broken by lowest index (spec §4.6). -/
def choose_mask (ver : Version) : Nat :=
  best_index ver.is_micro_v (mask_scores ver)

/-- Modelled from the spec: version/micro-preference validation — VersionError
"in case the version is invalid or the micro parameter contradicts the
provided version" (spec §7 and the `make` docstring): a full version outside
1..40, a full version with micro=True, or a Micro version with micro=False. -/
def bad_version (version : Option Version) (micro : Option Bool) : Bool :=
  match version with
  | none => false
  | some (.v n) => decide (n < 1) || decide (40 < n) || decide (micro = some true)
  | some _ => decide (micro = some false)

/-- Whether the requested version, if any, is a Micro version. -/
def is_micro_opt : Option Version → Bool
  | some ver => ver.is_micro_v
  | none => false

/-- Modelled from the spec: error-level validation — ErrorLevelError when the
level is "unsupported by the resolved version (H for Micro, any level for
M1)" (spec §7) or the (Micro version, level) pair is absent from the capacity
table (spec §3). -/
def bad_error_level (error : Option ErrLevel) (version : Option Version)
    (micro : Option Bool) : Bool :=
  match error with
  | none => false
  | some e =>
      decide (version = some Version.m1) ||
      (decide (e = ErrLevel.H) && (decide (micro = some true) || is_micro_opt version)) ||
      (match version with
       | some ver => ver.is_micro_v && (data_bits ver (some e)).isNone
       | none => false)

/-- Modelled from the spec: the mode/version compatibility table — numeric on
every version, alphanumeric not on M1, byte and kanji only on M3/M4 among the
Micro versions (spec §4.1 and the `make` docstring). -/
def mode_ok : Mode → Version → Bool
  | _, .v _ => true
  | .numeric, _ => true
  | .alphanumeric, m => !decide (m = Version.m1)
  | .byte, m => decide (m = Version.m3) || decide (m = Version.m4)
  | .kanji, m => decide (m = Version.m3) || decide (m = Version.m4)

/-- Modelled from the spec: ModeError when an explicitly requested mode is
"invalid or unsupported for the requested version class" (spec §7). -/
def bad_mode (mode : Option Mode) (version : Option Version) : Bool :=
  match mode, version with
  | some mo, some ver => !mode_ok mo ver
  | _, _ => false

/-- Modelled from the spec: the error level used for a candidate version —
the requested level if any, otherwise the default level M, except that M1
carries no error level (spec §4.2 tie-break "prefer level M"; the `make`
docstring: level M is the default, M1 supports no error correction). -/
def level_for (error : Option ErrLevel) : Version → Option ErrLevel
  | .m1 => match error with
           | none => none
           | some e => some e
  | _ => match error with
         | none => some ErrLevel.M
         | some e => some e

/-- Modelled from the spec: the Micro candidates in ascending module-count
order M1, M2, M3, M4 — M1 only when no explicit level was requested, and only
pairs present in the capacity table (spec §4.2). -/
def micro_candidates (error : Option ErrLevel) : List (Version × Option ErrLevel) :=
  (if error = none then [(Version.m1, (none : Option ErrLevel))] else []) ++
    (([Version.m2, Version.m3, Version.m4].map
        (fun m => (m, level_for error m))).filter
      (fun cand => (data_bits cand.1 cand.2).isSome))

/-- Modelled from the spec: the full-symbol candidates 1..40 in ascending
order at the requested (or default M) level (spec §4.2). -/
def full_candidates (error : Option ErrLevel) : List (Version × Option ErrLevel) :=
  (List.range 40).map (fun i => (Version.v (i + 1), some (error.getD ErrLevel.M)))

/-- Modelled from the spec: the candidate (version, error-level) pairs in
ascending total-module-count order, "restricted to the requested
version/level/micro if given"; with the micro flag unset, Micro candidates
come before full-symbol ones (spec §4.2). -/
def candidate_list (error : Option ErrLevel) (version : Option Version)
    (micro : Option Bool) : List (Version × Option ErrLevel) :=
  match version with
  | some ver => [(ver, level_for error ver)]
  | none =>
      (if micro = some false then [] else micro_candidates error) ++
        (if micro = some true then [] else full_candidates error)

/-- Modelled from the spec: whether the content's encoded bits fit within a
candidate's data capacity, the bit cost recomputed at the candidate's version
(spec §4.2). -/
def fits (c : Content) (cand : Version × Option ErrLevel) : Bool :=
  match data_bits cand.1 cand.2 with
  | none => false
  | some cap => decide (c.bits cand.1 ≤ cap)

/-- Modelled from the spec: the finished result bundle for a selected
candidate and mask index (spec §6). -/
def mk_code (c : Content) (cand : Version × Option ErrLevel) (i : Nat) : Code :=
  { matrix := build_matrix cand.1 i
    version := version_id cand.1
    error := cand.2
    mask := i
    segments := c.segments }

/-- Modelled from the spec: the encoder entry point `encoder.encode` (not in
the sources) — validate version/micro, error level and mode, search the first
candidate whose capacity fits (DataOverflowError when none does), validate an
explicit mask index against the resolved version class, and return the result
bundle with the chosen or requested mask applied (spec §4.2, §4.6, §6, §7). -/
def encode (c : Content) (error : Option ErrLevel) (version : Option Version)
    (mode : Option Mode) (mask : Option Nat) (_encoding : Option String)
    (_eci : Bool) (micro : Option Bool) : Except QRErr Code :=
  if bad_version version micro then .error .version_error
  else if bad_error_level error version micro then .error .error_level_error
  else if bad_mode mode version then .error .mode_error
  else
    match (candidate_list error version micro).find? (fits c) with
    | none => .error .data_overflow_error
    | some cand =>
        match mask with
        | some i =>
            if mask_count cand.1.is_micro_v ≤ i then .error .mask_error
            else .ok (mk_code c cand i)
        | none => .ok (mk_code c cand (choose_mask cand.1))

/-- The `QRCode` class of `segno/__init__.py`: wraps the result bundle,
keeping the matrix, the numeric version identifier, the error-level
identifier, the mask and the single segment's mode if there is exactly one
segment. -/
structure QRCode where
  matrix : List (List Bool)
  _version : Int
  _error : Option ErrLevel
  mask : Nat
  _mode : Option Mode
deriving DecidableEq, Repr

instance : Inhabited QRCode := ⟨⟨[], 0, none, 0, none⟩⟩

/-- `QRCode.__init__` (src lines 172-189): copy `matrix`, `version`, `error`
and `mask` from the bundle, and set `_mode` to `segments[0].mode` when the
bundle has exactly one segment, else to `None`. -/
def QRCode.of_code (code : Code) : QRCode :=
  { matrix := code.matrix
    _version := code.version
    _error := code.error
    mask := code.mask
    _mode := match code.segments with
             | [s] => some s.mode
             | _ => none }

/-- `make` (src lines 32-136): the main entry point, `QRCode(encoder.encode(
content, error, version, mode, mask, encoding, eci, micro))`. -/
def make (content : Content) (error : Option ErrLevel) (version : Option Version)
    (mode : Option Mode) (mask : Option Nat) (encoding : Option String)
    (eci : Bool) (micro : Option Bool) : Except QRErr QRCode :=
  (encode content error version mode mask encoding eci micro).map QRCode.of_code

/-- `make_qr` (src lines 139-149): `make` with `micro=False`. -/
def make_qr (content : Content) (error : Option ErrLevel) (version : Option Version)
    (mode : Option Mode) (mask : Option Nat) (encoding : Option String)
    (eci : Bool) : Except QRErr QRCode :=
  make content error version mode mask encoding eci (some false)

/-- `make_micro` (src lines 152-165): `make` with `micro=True` (and `eci`
left at its default `False`). -/
def make_micro (content : Content) (error : Option ErrLevel) (version : Option Version)
    (mode : Option Mode) (mask : Option Nat) (encoding : Option String) :
    Except QRErr QRCode :=
  make content error version mode mask encoding false (some true)

/-- Modelled from the spec: the encoder's `get_version_name`, mapping the
numeric identifier back to the public version name — the strings "M1".."M4"
for the Micro sentinels, the integer itself for full versions (`QRCode.version`
docstring, src lines 191-197). -/
def get_version_name (v : Int) : Sum String Int :=
  if v = -1 then .inl "M1"
  else if v = -2 then .inl "M2"
  else if v = -3 then .inl "M3"
  else if v = -4 then .inl "M4"
  else .inr v

/-- Modelled from the spec: the encoder's `get_error_name`, mapping the
error-level identifier to its public name (`QRCode.error` docstring, src
lines 199-207). -/
def get_error_name : ErrLevel → String
  | .L => "L"
  | .M => "M"
  | .Q => "Q"
  | .H => "H"

/-- `QRCode.version` property (src lines 191-197):
`encoder.get_version_name(self._version)`. -/
def QRCode.version (q : QRCode) : Sum String Int :=
  get_version_name q._version

/-- `QRCode.error` property (src lines 199-207): `None` when `_error` is
`None`, else `encoder.get_error_name(self._error)`. -/
def QRCode.error (q : QRCode) : Option String :=
  match q._error with
  | none => none
  | some e => some (get_error_name e)

/-- Python `str()` applied to the value of the `version` property. -/
def version_str : Sum String Int → String
  | .inl s => s
  | .inr n => toString n

/-- Python `sep.join(parts)`. -/
def str_join (sep : String) : List String → String
  | [] => ""
  | [s] => s
  | s :: rest => s ++ sep ++ str_join sep rest

/-- `QRCode.designator` property (src lines 219-226):
`'-'.join((version, self.error) if self.error else (version,))` with
`version = str(self.version)`. -/
def QRCode.designator (q : QRCode) : String :=
  let version := version_str q.version
  str_join "-" (match q.error with
                | some e => [version, e]
                | none => [version])

/-- `QRCode.is_micro` property (src lines 235-240): `self._version < 1`. -/
def QRCode.is_micro (q : QRCode) : Bool :=
  decide (q._version < 1)

/-- `QRCode.__eq__` (src lines 242-243): `self.matrix == other.matrix`. -/
def qr_eq (a b : QRCode) : Bool :=
  a.matrix == b.matrix

/-! Helper lemmas. -/

theorem mask_row_length (mi : Bool) (i r : Nat) :
    ∀ (c : Nat) (row : List Bool), (mask_row mi i r c row).length = row.length := by
  intro c row
  induction row generalizing c with
  | nil => rfl
  | cons b rest ih => simp [mask_row, ih]

theorem apply_mask_rows_length (mi : Bool) (i : Nat) :
    ∀ (r : Nat) (m : List (List Bool)), (apply_mask_rows mi i r m).length = m.length := by
  intro r m
  induction m generalizing r with
  | nil => rfl
  | cons row rest ih => simp [apply_mask_rows, ih]

theorem mem_apply_mask_rows (mi : Bool) (i : Nat) :
    ∀ (r : Nat) (m : List (List Bool)) (row' : List Bool),
      row' ∈ apply_mask_rows mi i r m → ∃ row ∈ m, row'.length = row.length := by
  intro r m
  induction m generalizing r with
  | nil => intro row' h; cases h
  | cons row rest ih =>
      intro row' h
      rcases List.mem_cons.mp h with h | h
      · subst h
        exact ⟨row, List.mem_cons_self row rest, mask_row_length mi i r 0 row⟩
      · obtain ⟨row₀, hmem, hlen⟩ := ih (r + 1) row' h
        exact ⟨row₀, List.mem_cons_of_mem _ hmem, hlen⟩

theorem build_matrix_length (ver : Version) (i : Nat) :
    (build_matrix ver i).length = matrix_size ver := by
  simp [build_matrix, apply_mask, apply_mask_rows_length, base_matrix]

theorem build_matrix_row_length (ver : Version) (i : Nat) :
    ∀ row ∈ build_matrix ver i, row.length = matrix_size ver := by
  intro row hrow
  obtain ⟨row₀, hmem, hlen⟩ := mem_apply_mask_rows ver.is_micro_v i 0 (base_matrix ver) row hrow
  rw [hlen]
  rw [List.eq_of_mem_replicate hmem]
  exact List.length_replicate _ _

/-- Well-formedness of a resolved version: full versions lie in 1..40. -/
def version_ok (ver : Version) : Prop :=
  ∀ n, ver = Version.v n → 1 ≤ n ∧ n ≤ 40

theorem mem_micro_candidates_micro {error : Option ErrLevel}
    {cand : Version × Option ErrLevel} (h : cand ∈ micro_candidates error) :
    cand.1.is_micro_v = true := by
  unfold micro_candidates at h
  rcases List.mem_append.mp h with h | h
  · by_cases he : error = none
    · simp only [if_pos he, List.mem_singleton] at h
      subst h
      rfl
    · simp [if_neg he] at h
  · obtain ⟨⟨m, hm, hxe⟩, _⟩ := List.mem_filter.mp h |>.imp_left List.mem_map.mp
    subst hxe
    simp at hm
    rcases hm with h | h | h
    · subst h; rfl
    · subst h; rfl
    · subst h; rfl

theorem mem_full_candidates {error : Option ErrLevel}
    {cand : Version × Option ErrLevel} (h : cand ∈ full_candidates error) :
    ∃ n, cand.1 = Version.v n ∧ 1 ≤ n ∧ n ≤ 40 := by
  obtain ⟨i, hi, he⟩ := List.mem_map.mp h
  subst he
  have := List.mem_range.mp hi
  exact ⟨i + 1, rfl, by omega, by omega⟩

theorem mem_candidate_list_version_ok {error : Option ErrLevel}
    {version : Option Version} {micro : Option Bool}
    {cand : Version × Option ErrLevel}
    (hbv : bad_version version micro = false)
    (hmem : cand ∈ candidate_list error version micro) : version_ok cand.1 := by
  cases version with
  | some ver =>
      simp only [candidate_list, List.mem_singleton] at hmem
      subst hmem
      cases ver with
      | v n =>
          simp only [bad_version, Bool.or_eq_false_iff, decide_eq_false_iff_not] at hbv
          intro n' hn'
          injection hn' with hn'
          omega
      | m1 => intro n hn; exact Version.noConfusion hn
      | m2 => intro n hn; exact Version.noConfusion hn
      | m3 => intro n hn; exact Version.noConfusion hn
      | m4 => intro n hn; exact Version.noConfusion hn
  | none =>
      simp only [candidate_list] at hmem
      rcases List.mem_append.mp hmem with h | h
      · have hm : cand.1.is_micro_v = true := by
          by_cases hmf : micro = some false
          · simp [if_pos hmf] at h
          · rw [if_neg hmf] at h
            exact mem_micro_candidates_micro h
        intro n hn
        rw [hn] at hm
        simp [Version.is_micro_v] at hm
      · by_cases hmt : micro = some true
        · simp [if_pos hmt] at h
        · rw [if_neg hmt] at h
          obtain ⟨n₀, hn₀, h1, h40⟩ := mem_full_candidates h
          intro n hn
          rw [hn₀] at hn
          injection hn with hn
          omega

theorem mem_candidate_list_full_of_micro_false {error : Option ErrLevel}
    {version : Option Version} {cand : Version × Option ErrLevel}
    (hbv : bad_version version (some false) = false)
    (hmem : cand ∈ candidate_list error version (some false)) :
    ∃ n, cand.1 = Version.v n ∧ 1 ≤ n ∧ n ≤ 40 := by
  cases version with
  | some ver =>
      simp only [candidate_list, List.mem_singleton] at hmem
      subst hmem
      cases ver with
      | v n =>
          simp only [bad_version, Bool.or_eq_false_iff, decide_eq_false_iff_not] at hbv
          exact ⟨n, rfl, by omega, by omega⟩
      | m1 => simp [bad_version] at hbv
      | m2 => simp [bad_version] at hbv
      | m3 => simp [bad_version] at hbv
      | m4 => simp [bad_version] at hbv
  | none =>
      simp only [candidate_list] at hmem
      rcases List.mem_append.mp hmem with h | h
      · simp at h
      · rw [if_neg (by decide)] at h
        exact mem_full_candidates h

theorem except_map_ok_inv {α β γ : Type} {f : α → β} {x : Except γ α} {q : β}
    (h : x.map f = .ok q) : ∃ a, x = .ok a ∧ q = f a := by
  cases x with
  | error e => simp [Except.map] at h
  | ok a =>
      refine ⟨a, rfl, ?_⟩
      simpa [Except.map] using h.symm

theorem encode_ok_inv {c : Content} {error : Option ErrLevel}
    {version : Option Version} {mode : Option Mode} {mask : Option Nat}
    {enc : Option String} {eci : Bool} {micro : Option Bool} {code : Code}
    (h : encode c error version mode mask enc eci micro = .ok code) :
    bad_version version micro = false ∧
    ∃ cand, cand ∈ candidate_list error version micro ∧
      code.version = version_id cand.1 ∧
      code.matrix = build_matrix cand.1 code.mask ∧
      code.error = cand.2 ∧
      code.segments = c.segments := by
  unfold encode at h
  split at h
  · cases h
  next hbv =>
    split at h
    · cases h
    split at h
    · cases h
    split at h
    · cases h
    next cand hfind =>
      refine ⟨by simpa using hbv, cand, List.mem_of_find?_eq_some hfind, ?_⟩
      split at h
      · split at h
        · cases h
        · cases h
          simp [mk_code]
      · cases h
        simp [mk_code]

/-! Concrete inputs used by the witnesses. -/

/-- A content needing no data bits at any version (e.g. empty content,
spec §8: zero-length content succeeds). -/
def sample_content : Content := ⟨[], fun _ => 0⟩

/-- A content needing one bit more than the version-40 level-L data capacity
at every version (spec §8 boundary scenario). -/
def over_content : Content := ⟨[], fun _ => data_bits_full 40 ErrLevel.L + 1⟩

/-- Whether the requested version, if any, is a full (non-Micro) version. -/
def is_full_opt : Option Version → Bool
  | some (.v _) => true
  | _ => false

/-! Claims. -/

/-- C10: Equality of QRCode objects depends only on the matrix: two QRCode
instances compare equal if and only if their matrices are equal, even when
their version, error level, mask, or mode attributes differ. -/
theorem claim_C10 (m₁ m₂ : List (List Bool)) (v₁ v₂ : Int) (e₁ e₂ : Option ErrLevel)
    (k₁ k₂ : Nat) (mo₁ mo₂ : Option Mode) :
    qr_eq ⟨m₁, v₁, e₁, k₁, mo₁⟩ ⟨m₂, v₂, e₂, k₂, mo₂⟩ = true ↔ m₁ = m₂ := by
  simp [qr_eq]

theorem claim_C10_witness :
    qr_eq ⟨[[true]], 1, some ErrLevel.M, 0, some Mode.byte⟩
      ⟨[[true]], -1, none, 3, none⟩ = true :=
  (claim_C10 [[true]] [[true]] 1 (-1) (some ErrLevel.M) none 0 3
    (some Mode.byte) none).mpr rfl

/-- C9: the designator property equals the version string concatenated with
'-' and the error-level string when an error level is present, and equals the
bare version string with no hyphen when the error level is absent. -/
theorem claim_C9 (q : QRCode) :
    (q._error = none → q.designator = version_str q.version) ∧
    (∀ e, q._error = some e →
      q.designator = version_str q.version ++ "-" ++ get_error_name e) := by
  constructor
  · intro h
    simp [QRCode.designator, QRCode.error, h, str_join]
  · intro e h
    simp [QRCode.designator, QRCode.error, h, str_join]

/-- A QRCode with no error level (as a Micro M1 symbol has). -/
def qr_m1_sample : QRCode := ⟨[[true]], -1, none, 0, some Mode.numeric⟩

/-- A QRCode with an error level. -/
def qr_full_sample : QRCode := ⟨[[true]], 1, some ErrLevel.M, 0, some Mode.byte⟩

theorem claim_C9_witness :
    qr_m1_sample.designator = version_str qr_m1_sample.version ∧
    qr_full_sample.designator =
      version_str qr_full_sample.version ++ "-" ++ get_error_name ErrLevel.M :=
  ⟨(claim_C9 qr_m1_sample).1 rfl, (claim_C9 qr_full_sample).2 ErrLevel.M rfl⟩

/-- C8: make_qr equals make with the same arguments and micro=False,
make_micro equals make with micro=True and eci left at its default False, and
make_qr can never produce a Micro symbol. -/
theorem claim_C8 :
    (∀ c error version mode mask encoding eci,
        make_qr c error version mode mask encoding eci =
          make c error version mode mask encoding eci (some false)) ∧
    (∀ c error version mode mask encoding,
        make_micro c error version mode mask encoding =
          make c error version mode mask encoding false (some true)) ∧
    (∀ c error version mode mask encoding eci q,
        make_qr c error version mode mask encoding eci = .ok q →
          q.is_micro = false) := by
  refine ⟨fun _ _ _ _ _ _ _ => rfl, fun _ _ _ _ _ _ => rfl, ?_⟩
  intro c error version mode mask encoding eci q h
  simp only [make_qr, make] at h
  obtain ⟨code, hcode, hq⟩ := except_map_ok_inv h
  obtain ⟨hbv, cand, hmem, hver, _, _, _⟩ := encode_ok_inv hcode
  obtain ⟨n, hn, h1, _⟩ := mem_candidate_list_full_of_micro_false hbv hmem
  subst hq
  have hv : (QRCode.of_code code)._version = code.version := rfl
  simp only [QRCode.is_micro, hv, hver, hn, version_id]
  simp only [decide_eq_false_iff_not]
  omega

/-- The QRCode produced by make_qr on the sample content with mask 0. -/
def w_qr8 : QRCode :=
  match make_qr sample_content none none none (some 0) none false with
  | .ok q => q
  | .error _ => default

theorem claim_C8_witness :
    make_qr sample_content none none none (some 0) none false =
      make sample_content none none none (some 0) none false (some false) ∧
    make_micro sample_content none none none (some 0) none =
      make sample_content none none none (some 0) none false (some true) ∧
    w_qr8.is_micro = false :=
  ⟨claim_C8.1 sample_content none none none (some 0) none false,
   claim_C8.2.1 sample_content none none none (some 0) none,
   claim_C8.2.2 sample_content none none none (some 0) none false w_qr8 rfl⟩

/-- C2: for every input the encoding entry point either returns a complete
result bundle (matrix, version identifier, error-level identifier or absent,
mask index, segment list) or fails with one of ModeError, VersionError,
ErrorLevelError, MaskError, DataOverflowError; no partial symbol is ever
returned. -/
theorem claim_C2 (c : Content) (error : Option ErrLevel) (version : Option Version)
    (mode : Option Mode) (mask : Option Nat) (encoding : Option String)
    (eci : Bool) (micro : Option Bool) :
    (∃ code, encode c error version mode mask encoding eci micro = .ok code) ∨
    encode c error version mode mask encoding eci micro = .error .mode_error ∨
    encode c error version mode mask encoding eci micro = .error .version_error ∨
    encode c error version mode mask encoding eci micro = .error .error_level_error ∨
    encode c error version mode mask encoding eci micro = .error .mask_error ∨
    encode c error version mode mask encoding eci micro = .error .data_overflow_error := by
  cases h : encode c error version mode mask encoding eci micro with
  | ok code => exact Or.inl ⟨code, rfl⟩
  | error e => cases e <;> simp

/-- C3: the encoder is deterministic: two invocations of the entry point on
identical inputs yield bit-identical matrices and identical version, error
level and mask. -/
theorem claim_C3 (c : Content) (error : Option ErrLevel) (version : Option Version)
    (mode : Option Mode) (mask : Option Nat) (encoding : Option String)
    (eci : Bool) (micro : Option Bool) (q₁ q₂ : QRCode)
    (h₁ : make c error version mode mask encoding eci micro = .ok q₁)
    (h₂ : make c error version mode mask encoding eci micro = .ok q₂) :
    q₁.matrix = q₂.matrix ∧ q₁._version = q₂._version ∧
    q₁._error = q₂._error ∧ q₁.mask = q₂.mask := by
  have h := h₁.symm.trans h₂
  injection h with h
  subst h
  exact ⟨rfl, rfl, rfl, rfl⟩

/-- The QRCode produced by make on the sample content with mask 0. -/
def w_qr3 : QRCode :=
  match make sample_content none none none (some 0) none false none with
  | .ok q => q
  | .error _ => default

theorem claim_C3_witness :
    w_qr3.matrix = w_qr3.matrix ∧ w_qr3._version = w_qr3._version ∧
    w_qr3._error = w_qr3._error ∧ w_qr3.mask = w_qr3.mask :=
  claim_C3 sample_content none none none (some 0) none false none w_qr3 w_qr3 rfl rfl

/-- C5: requesting version M1 together with any explicit error level fails
with ErrorLevelError, and requesting error level H together with micro=True
fails with ErrorLevelError; no symbol is produced in either case. -/
theorem claim_C5 :
    (∀ (c : Content) (e : ErrLevel) (mode : Option Mode) (mask : Option Nat)
        (encoding : Option String) (eci : Bool) (micro : Option Bool),
        micro ≠ some false →
        make c (some e) (some Version.m1) mode mask encoding eci micro =
          .error .error_level_error) ∧
    (∀ (c : Content) (version : Option Version) (mode : Option Mode)
        (mask : Option Nat) (encoding : Option String) (eci : Bool),
        is_full_opt version = false →
        make c (some ErrLevel.H) version mode mask encoding eci (some true) =
          .error .error_level_error) := by
  constructor
  · intro c e mode mask encoding eci micro hm
    have hbv : bad_version (some Version.m1) micro = false := by
      simp [bad_version, hm]
    have hbe : bad_error_level (some e) (some Version.m1) micro = true := by
      simp [bad_error_level]
    simp [make, encode, hbv, hbe, Except.map]
  · intro c version mode mask encoding eci hv
    have hbv : bad_version version (some true) = false := by
      cases version with
      | none => rfl
      | some ver =>
          cases ver with
          | v n => simp [is_full_opt] at hv
          | m1 => simp [bad_version]
          | m2 => simp [bad_version]
          | m3 => simp [bad_version]
          | m4 => simp [bad_version]
    have hbe : bad_error_level (some ErrLevel.H) version (some true) = true := by
      simp [bad_error_level]
    simp [make, encode, hbv, hbe, Except.map]

theorem claim_C5_witness :
    make sample_content (some ErrLevel.L) (some Version.m1) none none none false none =
      .error .error_level_error ∧
    make sample_content (some ErrLevel.H) none none none none false (some true) =
      .error .error_level_error :=
  ⟨claim_C5.1 sample_content ErrLevel.L none none none false none (by decide),
   claim_C5.2 sample_content none none none none false rfl⟩

theorem best_index_lt (mz : Bool) :
    ∀ l : List Nat, l ≠ [] → best_index mz l < l.length := by
  intro l
  induction l with
  | nil => intro h; exact absurd rfl h
  | cons s rest ih =>
      intro _
      cases rest with
      | nil => simp [best_index]
      | cons t rest' =>
          have h := ih (by simp)
          simp only [best_index]
          split
          · simpa using Nat.succ_lt_succ h
          · simp

theorem best_index_opt (mz : Bool) :
    ∀ (l : List Nat) (j : Nat), j < l.length →
      better mz (l.getD j 0) (l.getD (best_index mz l) 0) = false := by
  intro l
  induction l with
  | nil => intro j hj; simp at hj
  | cons s rest ih =>
      intro j hj
      cases rest with
      | nil =>
          have hj0 : j = 0 := by
            simp only [List.length_cons, List.length_nil] at hj
            omega
          subst hj0
          cases mz <;> simp [best_index, better]
      | cons t rest' =>
          simp only [best_index]
          split
          next hb =>
              cases j with
              | zero =>
                  simp only [List.getD_cons_zero, List.getD_cons_succ]
                  cases mz <;> simp [better] at hb ⊢ <;> omega
              | succ k =>
                  simp only [List.getD_cons_succ]
                  exact ih k (by simpa using hj)
          next hb =>
              cases j with
              | zero =>
                  simp only [List.getD_cons_zero]
                  cases mz <;> simp [better]
              | succ k =>
                  simp only [List.getD_cons_zero, List.getD_cons_succ]
                  have h1 := ih k (by simpa using hj)
                  cases mz <;> simp [better] at hb h1 ⊢ <;> omega

theorem best_index_first (mz : Bool) :
    ∀ (l : List Nat) (j : Nat), j < l.length →
      l.getD j 0 = l.getD (best_index mz l) 0 → best_index mz l ≤ j := by
  intro l
  induction l with
  | nil => intro j hj; simp at hj
  | cons s rest ih =>
      intro j hj heq
      cases rest with
      | nil => simp [best_index]
      | cons t rest' =>
          revert heq
          simp only [best_index]
          split
          next hb =>
              cases j with
              | zero =>
                  intro heq
                  rw [List.getD_cons_zero, List.getD_cons_succ] at heq
                  rw [← heq] at hb
                  cases mz <;> simp [better] at hb
              | succ k =>
                  intro heq
                  simp only [List.getD_cons_succ] at heq
                  exact Nat.succ_le_succ (ih k (by simpa using hj) heq)
          next hb =>
              intro _
              exact Nat.zero_le j

/-- C6: mask selection is deterministic: among all candidate masks achieving
the optimal penalty score (minimum for full symbols, maximum of the Micro
scoring formula for Micro symbols), the mask with the lowest index is always
chosen; the Masking Engine's choose_mask is exactly this selection over the
candidate scores. -/
theorem claim_C6 (maximize : Bool) (scores : List Nat) (hne : scores ≠ []) :
    best_index maximize scores < scores.length ∧
    (∀ j, j < scores.length →
        if maximize then
          scores.getD j 0 ≤ scores.getD (best_index maximize scores) 0
        else
          scores.getD (best_index maximize scores) 0 ≤ scores.getD j 0) ∧
    (∀ j, j < scores.length →
        scores.getD j 0 = scores.getD (best_index maximize scores) 0 →
        best_index maximize scores ≤ j) ∧
    (∀ ver : Version, choose_mask ver = best_index ver.is_micro_v (mask_scores ver)) := by
  refine ⟨best_index_lt maximize scores hne, ?_,
    best_index_first maximize scores, fun _ => rfl⟩
  intro j hj
  have h := best_index_opt maximize scores j hj
  cases maximize <;> simp [better] at h ⊢ <;> omega

theorem claim_C6_witness : best_index false [3, 1, 2, 1] ≤ 1 :=
  (claim_C6 false [3, 1, 2, 1] (by decide)).2.2.1 1 (by decide) (by decide)

/-- C1: for every content that fits within version 40-H capacity, the encode
entry point (with all restrictions left at their defaults) succeeds, and the
side length of the returned matrix equals 4·version+17 for a full symbol of
the resolved version and exactly 11/13/15/17 for resolved micro-versions
M1..M4. -/
theorem claim_C1 (c : Content)
    (h : c.bits (Version.v 40) ≤ data_bits_full 40 ErrLevel.H) :
    ∃ q, make c none none none none none false none = .ok q ∧
      ∃ ver : Version, q._version = version_id ver ∧
        q.matrix.length = matrix_size ver ∧
        (∀ row ∈ q.matrix, row.length = matrix_size ver) ∧
        (∀ n, ver = Version.v n → matrix_size ver = 4 * n + 17) ∧
        (ver = Version.m1 → matrix_size ver = 11) ∧
        (ver = Version.m2 → matrix_size ver = 13) ∧
        (ver = Version.m3 → matrix_size ver = 15) ∧
        (ver = Version.m4 → matrix_size ver = 17) := by
  have hH : data_bits_full 40 ErrLevel.H = 10208 := by decide
  have hM : data_bits (Version.v 40) (some ErrLevel.M) = some 18672 := by decide
  have hfit : fits c (Version.v 40, some ErrLevel.M) = true := by
    simp only [fits, hM, decide_eq_true_eq]
    rw [hH] at h
    omega
  have hmem : (Version.v 40, some ErrLevel.M) ∈ candidate_list none none none := by
    decide
  have hsome : ((candidate_list none none none).find? (fits c)).isSome :=
    List.find?_isSome.mpr ⟨_, hmem, hfit⟩
  obtain ⟨cand, hfind⟩ := Option.isSome_iff_exists.mp hsome
  have henc : encode c none none none none none false none =
      .ok (mk_code c cand (choose_mask cand.1)) := by
    simp [encode, bad_version, bad_error_level, bad_mode, hfind]
  refine ⟨QRCode.of_code (mk_code c cand (choose_mask cand.1)),
    by simp [make, henc, Except.map], cand.1, rfl, ?_, ?_, ?_, ?_, ?_, ?_, ?_⟩
  · exact build_matrix_length cand.1 _
  · exact build_matrix_row_length cand.1 _
  · intro n hn; rw [hn]; rfl
  · intro hm; rw [hm]; rfl
  · intro hm; rw [hm]; rfl
  · intro hm; rw [hm]; rfl
  · intro hm; rw [hm]; rfl

theorem claim_C1_witness :
    ∃ q, make sample_content none none none none none false none = .ok q ∧
      ∃ ver : Version, q._version = version_id ver ∧
        q.matrix.length = matrix_size ver ∧
        (∀ row ∈ q.matrix, row.length = matrix_size ver) ∧
        (∀ n, ver = Version.v n → matrix_size ver = 4 * n + 17) ∧
        (ver = Version.m1 → matrix_size ver = 11) ∧
        (ver = Version.m2 → matrix_size ver = 13) ∧
        (ver = Version.m3 → matrix_size ver = 15) ∧
        (ver = Version.m4 → matrix_size ver = 17) :=
  claim_C1 sample_content (by decide)

/-- C4: when the content's encoded data exceeds the capacity of every allowed
(version, error-level) candidate — in particular content one bit over the
version-40 level-L capacity with no explicit restrictions — the encode entry
point fails with DataOverflowError. -/
theorem claim_C4 (c : Content)
    (h : ∀ cand ∈ candidate_list none none none, fits c cand = false) :
    make c none none none none none false none = .error .data_overflow_error := by
  have hfind : (candidate_list none none none).find? (fits c) = none :=
    List.find?_eq_none.mpr (by intro x hx; simp [h x hx])
  simp [make, encode, bad_version, bad_error_level, bad_mode, hfind, Except.map]

theorem claim_C4_witness :
    over_content.bits (Version.v 40) = data_bits_full 40 ErrLevel.L + 1 ∧
    make over_content none none none none none false none =
      .error .data_overflow_error :=
  ⟨rfl, claim_C4 over_content (by decide)⟩

/-- C7: for every successful encode result the internal numeric version
identifier is strictly less than 1 exactly when the symbol is a Micro QR Code
(with distinct sentinels for M1..M4) and is an integer in 1..40 for full
symbols; consequently QRCode.is_micro returns true iff that identifier is
less than 1. -/
theorem claim_C7 (c : Content) (error : Option ErrLevel) (version : Option Version)
    (mode : Option Mode) (mask : Option Nat) (encoding : Option String)
    (eci : Bool) (micro : Option Bool) (q : QRCode)
    (h : make c error version mode mask encoding eci micro = .ok q) :
    (∃ ver : Version, q._version = version_id ver ∧
        (ver.is_micro_v = true ↔ q._version < 1) ∧
        (ver.is_micro_v = false → 1 ≤ q._version ∧ q._version ≤ 40) ∧
        (ver = Version.m1 → q._version = -1) ∧
        (ver = Version.m2 → q._version = -2) ∧
        (ver = Version.m3 → q._version = -3) ∧
        (ver = Version.m4 → q._version = -4)) ∧
    (q.is_micro = true ↔ q._version < 1) := by
  simp only [make] at h
  obtain ⟨code, hcode, hq⟩ := except_map_ok_inv h
  obtain ⟨hbv, cand, hmem, hver, _, _, _⟩ := encode_ok_inv hcode
  have hok := mem_candidate_list_version_ok hbv hmem
  subst hq
  obtain ⟨cv, clvl⟩ := cand
  have hqv : (QRCode.of_code code)._version = version_id cv := hver
  have hokv : version_ok cv := hok
  rw [hqv]
  constructor
  · refine ⟨cv, rfl, ?_, ?_, ?_, ?_, ?_, ?_⟩
    · cases cv with
      | v n =>
          obtain ⟨h1, _⟩ := hokv n rfl
          simp only [Version.is_micro_v, version_id]
          constructor
          · intro hfalse; cases hfalse
          · intro hlt; exfalso; omega
      | m1 => simp [Version.is_micro_v, version_id]
      | m2 => simp [Version.is_micro_v, version_id]
      | m3 => simp [Version.is_micro_v, version_id]
      | m4 => simp [Version.is_micro_v, version_id]
    · intro hfull
      cases cv with
      | v n =>
          obtain ⟨h1, h40⟩ := hokv n rfl
          simp only [version_id]
          omega
      | m1 => simp [Version.is_micro_v] at hfull
      | m2 => simp [Version.is_micro_v] at hfull
      | m3 => simp [Version.is_micro_v] at hfull
      | m4 => simp [Version.is_micro_v] at hfull
    · intro hm; rw [hm]; rfl
    · intro hm; rw [hm]; rfl
    · intro hm; rw [hm]; rfl
    · intro hm; rw [hm]; rfl
  · simp only [QRCode.is_micro, decide_eq_true_eq]
    rw [hqv]

/-- The QRCode produced by make on the sample content with mask 1. -/
def w_qr7 : QRCode :=
  match make sample_content none none none (some 1) none false none with
  | .ok q => q
  | .error _ => default

theorem claim_C7_witness :
    (∃ ver : Version, w_qr7._version = version_id ver ∧
        (ver.is_micro_v = true ↔ w_qr7._version < 1) ∧
        (ver.is_micro_v = false → 1 ≤ w_qr7._version ∧ w_qr7._version ≤ 40) ∧
        (ver = Version.m1 → w_qr7._version = -1) ∧
        (ver = Version.m2 → w_qr7._version = -2) ∧
        (ver = Version.m3 → w_qr7._version = -3) ∧
        (ver = Version.m4 → w_qr7._version = -4)) ∧
    (w_qr7.is_micro = true ↔ w_qr7._version < 1) :=
  claim_C7 sample_content none none none (some 1) none false none w_qr7 rfl

end Segno
